import Mathlib

/-!
Shallow embedding of `watch.py`, a GPU occupancy supervisor.

The program (single file `src/watch.py`):
* parses a `--gpus` flag into a list of managed device ids (lines 14-40),
* each cycle probes `nvidia-smi` for per-device usage (`get_gpu_usage`,
  lines 63-91),
* for each managed id decides to skip / log / launch a worker process,
  recording launched process handles in the dict `active_processes`
  (lines 131-152),
* on SIGINT/SIGTERM/atexit runs `shutdown_all` (lines 96-109), which
  terminates live handles, joins all handles, and exits with code 0.

External effects are modelled explicitly: subprocess invocations become an
environment of `Except`-valued results, process handles become numeric ids
with a liveness oracle, and the observable actions of a cycle or of a
shutdown are recorded in ghost event logs.
-/

namespace GpuWatcher

/-- Result environment for the two kinds of `subprocess.check_output`
invocations made by `get_gpu_usage` (watch.py lines 70-73 and 78-81):
`listApps` is the single `--query-compute-apps=pid,gpu_uuid` call, `gpuUuid d`
is the per-device `--query-gpu=uuid --id=d` call.  `Except.error ()` models
`subprocess.CalledProcessError` (or the tool being unavailable); `Except.ok s`
carries the decoded stdout. -/
structure ToolEnv where
  listApps : Except Unit String
  gpuUuid : Nat → Except Unit String

/-- Characters Python `str.strip()` removes by default (ASCII whitespace;
the tool output contains nothing wider). -/
def pySpace (c : Char) : Bool :=
  c == ' ' || c == '\t' || c == '\n' || c == '\r' || c == '\x0b' || c == '\x0c'

/-- Drop leading whitespace from a character list. -/
def dropSpaces : List Char → List Char
  | [] => []
  | c :: cs => if pySpace c then dropSpaces cs else c :: cs

/-- Python `str.strip()` on the underlying character list: drop whitespace
from both ends. -/
def pyStripChars (cs : List Char) : List Char :=
  (dropSpaces (dropSpaces cs).reverse).reverse

/-- Python `str.strip()`. -/
def pyStrip (s : String) : String :=
  ⟨pyStripChars s.data⟩

/-- Helper for `pySplit`: accumulate the current piece (reversed) while
scanning for the separator. -/
def splitAux (sep : Char) : List Char → List Char → List (List Char)
  | [], acc => [acc.reverse]
  | c :: cs, acc =>
    if c == sep then acc.reverse :: splitAux sep cs []
    else splitAux sep cs (c :: acc)

/-- Python `str.split(sep)` for a single-character separator: always yields
at least one piece, and `n` separators yield `n + 1` pieces. -/
def pySplit (s : String) (sep : Char) : List String :=
  (splitAux sep s.data []).map (fun cs => ⟨cs⟩)

/-- Python `str.splitlines()` on a string already stripped of surrounding
whitespace (watch.py line 86 applies it to `raw_output`, which was produced
by `.strip()` on line 73, so there is no trailing newline and the only line
boundary in the tool output is a plain newline). -/
def splitlines (s : String) : List String :=
  if s = "" then [] else pySplit s '\n'

/-- One step of the generator inside `any(...)` at watch.py lines 84-87:
`line.split(",")[1].strip() == uuid`.  Python raises `IndexError` when the
line has no comma, modelled as `Except.error ()`. -/
def lineMatch (uuid line : String) : Except Unit Bool :=
  match (pySplit line ',').get? 1 with
  | some s => .ok (pyStrip s == uuid)
  | none => .error ()

/-- Python `any(...)` over the generator at watch.py lines 84-87: lazy, so it
short-circuits on the first matching line and only raises if a malformed line
is reached before a match. -/
def anyMatch (uuid : String) : List String → Except Unit Bool
  | [] => .ok false
  | l :: ls =>
    match lineMatch uuid l with
    | .error e => .error e
    | .ok true => .ok true
    | .ok false => anyMatch uuid ls

/-- The `for gpu_id in all_devices` loop of `get_gpu_usage` (watch.py lines
76-89), building the `usage` dict in insertion order.  Every per-device uuid
query goes through `subprocess.check_output` with no exception handler, so a
failure aborts the whole loop. -/
def usageLoop (env : ToolEnv) (raw_output : String) :
    List Nat → Except Unit (List (Nat × Bool))
  | [] => .ok []
  | d :: ds =>
    match env.gpuUuid d with
    | .error e => .error e
    | .ok u =>
      let uuid := pyStrip u
      match (if raw_output = "" then .ok false
             else anyMatch uuid (splitlines raw_output)) with
      | .error e => .error e
      | .ok in_use =>
        match usageLoop env raw_output ds with
        | .error e => .error e
        | .ok rest => .ok ((d, in_use) :: rest)

/-- The probe `get_gpu_usage` (watch.py lines 63-91).  Returns the usage dict as an
association list in insertion order, or the propagated exception of the first
failing tool invocation. -/
def get_gpu_usage (env : ToolEnv) (all_devices : List Nat) :
    Except Unit (List (Nat × Bool)) :=
  match env.listApps with
  | .error e => .error e
  | .ok raw => usageLoop env (pyStrip raw) all_devices

/-- Decimal value of a digit run; `none` as soon as a non-digit appears. -/
def digitsVal (acc : Nat) : List Char → Option Nat
  | [] => some acc
  | c :: cs => if c.isDigit then digitsVal (acc * 10 + (c.toNat - 48)) cs else none

/-- Python `int(x)` on the pieces of the `--gpus` string (watch.py line 34):
tolerates surrounding whitespace and an optional sign, fails (`ValueError`,
modelled as `none`) on the empty string or any non-digit (numeric
underscores and non-ASCII digits are not modelled - none appear in any input
considered here). -/
def pyInt (x : String) : Option Int :=
  match pyStripChars x.data with
  | [] => none
  | '-' :: c :: cs => (digitsVal 0 (c :: cs)).map (fun n => -(n : Int))
  | '+' :: c :: cs => (digitsVal 0 (c :: cs)).map (fun n => (n : Int))
  | c :: cs => (digitsVal 0 (c :: cs)).map (fun n => (n : Int))

/-- The list comprehension `[int(x) for x in args.gpus.split(",")]` (watch.py
line 34): the first failing conversion raises `ValueError`. -/
def parseInts : List String → Except Unit (List Int)
  | [] => .ok []
  | x :: xs =>
    match pyInt x with
    | none => .error ()
    | some n =>
      match parseInts xs with
      | .error e => .error e
      | .ok ns => .ok (n :: ns)

/-- Resolution of the managed id list `gpu_ids` (watch.py lines 31-40).
`args.gpus` is `none` when the flag is absent; Python truthiness makes both
`None` and the empty string fall to the `else` branch, which defaults to all
enumerated devices.  A parse failure is the `sys.exit(1)` at line 37. -/
def resolveGpuIds (gpusArg : Option String) (all_devices : List Nat) :
    Except Unit (List Int) :=
  match gpusArg with
  | some s => if s = "" then .ok (all_devices.map Int.ofNat)
              else parseInts (pySplit s ',')
  | none => .ok (all_devices.map Int.ofNat)

/-- Outcome of program startup: either an early `sys.exit(code)` or entry
into the supervision loop with the resolved managed list. -/
inductive StartupResult where
  | exitWith (code : Nat)
  | runLoop (gpu_ids : List Int)
deriving DecidableEq, Repr

/-- Startup control flow: the module-level parse (watch.py lines 31-40,
exit 1 on bad input) followed by the empty check at the top of `main`
(lines 116-118, exit 1 when `gpu_ids` is empty).  Only the `runLoop` outcome
ever reaches the cycle loop, so no process is launched and no registry entry
is created on either `exitWith` path. -/
def mainStartup (gpusArg : Option String) (all_devices : List Nat) :
    StartupResult :=
  match resolveGpuIds gpusArg all_devices with
  | .error _ => .exitWith 1
  | .ok gpu_ids => if gpu_ids = [] then .exitWith 1 else .runLoop gpu_ids

/-! ## The supervision cycle (watch.py lines 131-152)

Process handles (`mp.Process` objects) are modelled by the numeric id the
launcher mints for them, in launch order; `active_processes` is the Python
dict as an association list in insertion order.  `is_alive()` is an oracle
`alive0` on the handles existing when the cycle starts; a process launched
during the current cycle is still alive when re-queried later in the same
cycle (its worker runs an infinite loop and nothing terminates it
mid-cycle), which `aliveInCycle` encodes by answering `true` for handles
minted at or after the cycle's starting counter. -/

/-- In-cycle state: the registry dict, the fresh-handle counter, and two
ghost event logs - device ids launched this cycle, device ids iterated this
cycle (in order). -/
structure CycleState where
  active_processes : List (Int × Nat)
  next : Nat
  launches : List Int
  visited : List Int
deriving DecidableEq, Repr

/-- Python `active_processes[gid]` / `gid in active_processes`: first match
in the association list. -/
def regLookup : List (Int × Nat) → Int → Option Nat
  | [], _ => none
  | p :: ps, gid => if p.1 = gid then some p.2 else regLookup ps gid

/-- Python `active_processes[gid] = proc`: replace the value at an existing
key, else append the new binding (dict insertion order). -/
def regInsert : List (Int × Nat) → Int → Nat → List (Int × Nat)
  | [], gid, h => [(gid, h)]
  | p :: ps, gid, h => if p.1 = gid then (gid, h) :: ps else p :: regInsert ps gid h

/-- Python `usage.get(gid, False)` (watch.py line 138): the usage dict keys
are the enumerated (natural) device indices, `gid` is the user-supplied
(possibly negative) id. -/
def usageGet : List (Nat × Bool) → Int → Bool
  | [], _ => false
  | p :: ps, gid => if Int.ofNat p.1 = gid then p.2 else usageGet ps gid

/-- Liveness of the handle `h` as observed during one cycle that started
with fresh-handle counter `next0`: pre-existing handles answer the oracle
`alive0`, handles minted this cycle are alive. -/
def aliveInCycle (alive0 : Nat → Bool) (next0 : Nat) (h : Nat) : Bool :=
  if h < next0 then alive0 h else true

/-- Python `gid in active_processes and active_processes[gid].is_alive()`
(watch.py line 143). -/
def liveEntry (alive : Nat → Bool) (reg : List (Int × Nat)) (gid : Int) : Bool :=
  match regLookup reg gid with
  | some h => alive h
  | none => false

/-- The body of `for gid in gpu_ids` (watch.py lines 133-149): warn-and-skip
for an id outside the enumerated set, log-only when the usage snapshot says
in-use, log-only when a live handle is registered, otherwise launch a fresh
process and store its handle.  `visited` records the iteration, `launches`
records launch events. -/
def processDevice (all_devices : List Nat) (usage : List (Nat × Bool))
    (alive : Nat → Bool) (s : CycleState) (gid : Int) : CycleState :=
  let s := { s with visited := s.visited ++ [gid] }
  if gid ∉ all_devices.map Int.ofNat then s
  else if usageGet usage gid then s
  else if liveEntry alive s.active_processes gid then s
  else { s with active_processes := regInsert s.active_processes gid s.next,
                next := s.next + 1,
                launches := s.launches ++ [gid] }

/-- One full pass of the `for gid in gpu_ids` loop (one probe cycle's act
phase), from registry `reg` and fresh-handle counter `next0`, with the
cycle's usage snapshot and liveness oracle fixed (the snapshot is computed
once before the loop, watch.py line 132). -/
def runCycle (all_devices : List Nat) (usage : List (Nat × Bool))
    (alive0 : Nat → Bool) (gpu_ids : List Int)
    (reg : List (Int × Nat)) (next0 : Nat) : CycleState :=
  gpu_ids.foldl (processDevice all_devices usage (aliveInCycle alive0 next0))
    ⟨reg, next0, [], []⟩

/-- Many supervision cycles: each trace element supplies that cycle's usage
snapshot and liveness oracle; the registry and the handle counter persist
across cycles (the ghost logs are per-cycle). -/
def runCycles (all_devices : List Nat) (gpu_ids : List Int) :
    List (List (Nat × Bool) × (Nat → Bool)) →
    List (Int × Nat) × Nat → List (Int × Nat) × Nat
  | [], st => st
  | (usage, alive0) :: rest, (reg, next0) =>
    let s := runCycle all_devices usage alive0 gpu_ids reg next0
    runCycles all_devices gpu_ids rest (s.active_processes, s.next)

/-! ## Shutdown (watch.py lines 96-109)

`shutdown_all` is modelled by the sequence of observable actions it
performs: a conditional `terminate` per registry entry (guarded by
`is_alive()`), then an unconditional `join` per registry entry - `join()`
is called with no timeout argument, so each join blocks until that process
has fully exited - then `sys.exit(0)`. -/

/-- One observable shutdown action. -/
inductive SEvent where
  | term (gid : Int)
  | join (gid : Int)
  | exitWith (code : Nat)
deriving DecidableEq, Repr

/-- The routine `shutdown_all` (watch.py lines 96-109) as its action trace: the first
`for` loop terminates every entry whose handle is alive, the second joins
every entry, then the process exits with status 0. -/
def shutdown_all (alive : Nat → Bool) (reg : List (Int × Nat)) : List SEvent :=
  ((reg.filter (fun p => alive p.2)).map (fun p => SEvent.term p.1))
    ++ (reg.map (fun p => SEvent.join p.1))
    ++ [SEvent.exitWith 0]

/-- Liveness oracle after a completed `shutdown_all`: the join loop blocked
until every registered process had fully exited, so a later invocation of
`shutdown_all` observes every handle as dead. -/
def deadAll : Nat → Bool := fun _ => false

/-- Phase of a shutdown action, used to state that the trace is ordered
terminate-then-join-then-exit. -/
def eventPhase : SEvent → Nat
  | .term _ => 0
  | .join _ => 1
  | .exitWith _ => 2

/-! ## Dictionary lemmas -/

theorem regLookup_regInsert_self (reg : List (Int × Nat)) (g : Int) (h : Nat) :
    regLookup (regInsert reg g h) g = some h := by
  induction reg with
  | nil => simp [regInsert, regLookup]
  | cons p ps ih =>
    by_cases hp : p.1 = g
    · simp [regInsert, hp, regLookup]
    · simp [regInsert, hp, regLookup, ih]

theorem regLookup_regInsert_ne (reg : List (Int × Nat)) (g g2 : Int) (h : Nat)
    (hne : g2 ≠ g) : regLookup (regInsert reg g h) g2 = regLookup reg g2 := by
  induction reg with
  | nil => simp [regInsert, regLookup, Ne.symm hne]
  | cons p ps ih =>
    by_cases hp : p.1 = g
    · simp [regInsert, hp, regLookup, Ne.symm hne]
    · by_cases hq : p.1 = g2 <;> simp [regInsert, hp, regLookup, hq, hne, ih]

theorem keys_regInsert (reg : List (Int × Nat)) (g : Int) (h : Nat) :
    (regInsert reg g h).map Prod.fst =
      if g ∈ reg.map Prod.fst then reg.map Prod.fst
      else reg.map Prod.fst ++ [g] := by
  induction reg with
  | nil => simp [regInsert]
  | cons p ps ih =>
    by_cases hp : p.1 = g
    · simp [regInsert, hp]
    · by_cases hg : g ∈ ps.map Prod.fst <;>
        simp [regInsert, hp, ih, hg, Ne.symm hp]

theorem nodup_keys_regInsert (reg : List (Int × Nat)) (g : Int) (h : Nat)
    (hnd : (reg.map Prod.fst).Nodup) :
    ((regInsert reg g h).map Prod.fst).Nodup := by
  rw [keys_regInsert]
  by_cases hg : g ∈ reg.map Prod.fst
  · simpa [hg] using hnd
  · simp [hg, List.nodup_append, hnd]

/-- The check `liveEntry` only looks at the binding for its own device id. -/
theorem liveEntry_ext (A : Nat → Bool) (r1 r2 : List (Int × Nat)) (g : Int)
    (h : regLookup r1 g = regLookup r2 g) : liveEntry A r1 g = liveEntry A r2 g := by
  unfold liveEntry
  rw [h]

/-! ## Single-step lemmas about `processDevice` -/

section CycleLemmas

variable (all_devices : List Nat) (usage : List (Nat × Bool)) (A : Nat → Bool)

theorem processDevice_visited (s : CycleState) (gid : Int) :
    (processDevice all_devices usage A s gid).visited = s.visited ++ [gid] := by
  simp only [processDevice]
  split_ifs <;> rfl

theorem processDevice_next_le (s : CycleState) (gid : Int) :
    s.next ≤ (processDevice all_devices usage A s gid).next := by
  simp only [processDevice]
  split_ifs <;> simp

theorem processDevice_invalid (s : CycleState) (gid : Int)
    (hinv : gid ∉ all_devices.map Int.ofNat) :
    (processDevice all_devices usage A s gid).active_processes = s.active_processes ∧
    (processDevice all_devices usage A s gid).launches = s.launches ∧
    (processDevice all_devices usage A s gid).next = s.next := by
  simp [processDevice, hinv]

theorem processDevice_busy (s : CycleState) (gid : Int)
    (hbusy : usageGet usage gid = true) :
    (processDevice all_devices usage A s gid).active_processes = s.active_processes ∧
    (processDevice all_devices usage A s gid).launches = s.launches ∧
    (processDevice all_devices usage A s gid).next = s.next := by
  by_cases hinv : gid ∈ all_devices.map Int.ofNat <;> simp [processDevice, hinv, hbusy]

theorem processDevice_live (s : CycleState) (gid : Int)
    (hlive : liveEntry A s.active_processes gid = true) :
    (processDevice all_devices usage A s gid).active_processes = s.active_processes ∧
    (processDevice all_devices usage A s gid).launches = s.launches ∧
    (processDevice all_devices usage A s gid).next = s.next := by
  by_cases hinv : gid ∈ all_devices.map Int.ofNat
  · by_cases hbusy : usageGet usage gid <;> simp [processDevice, hinv, hbusy, hlive]
  · simp [processDevice, hinv]

theorem processDevice_launch (s : CycleState) (gid : Int)
    (hval : gid ∈ all_devices.map Int.ofNat)
    (hbusy : usageGet usage gid = false)
    (hlive : liveEntry A s.active_processes gid = false) :
    (processDevice all_devices usage A s gid).active_processes
      = regInsert s.active_processes gid s.next ∧
    (processDevice all_devices usage A s gid).launches = s.launches ++ [gid] ∧
    (processDevice all_devices usage A s gid).next = s.next + 1 := by
  simp [processDevice, hval, hbusy, hlive]

theorem processDevice_frame (s : CycleState) (gid g2 : Int) (hne : g2 ≠ gid) :
    regLookup (processDevice all_devices usage A s g2).active_processes gid
      = regLookup s.active_processes gid ∧
    (processDevice all_devices usage A s g2).launches.count gid
      = s.launches.count gid := by
  simp only [processDevice]
  split_ifs <;>
    simp [regLookup_regInsert_ne _ _ _ _ (Ne.symm hne), List.count_append,
      List.count_cons, List.count_nil, hne]

theorem processDevice_nodup (s : CycleState) (gid : Int)
    (hnd : (s.active_processes.map Prod.fst).Nodup) :
    ((processDevice all_devices usage A s gid).active_processes.map Prod.fst).Nodup := by
  simp only [processDevice]
  split_ifs <;> simp [hnd, nodup_keys_regInsert _ _ _ hnd]

end CycleLemmas

/-! ## Whole-cycle lemmas (folds of `processDevice` over the managed list) -/

section FoldLemmas

variable (all_devices : List Nat) (usage : List (Nat × Bool)) (A : Nat → Bool)

theorem foldl_visited (l : List Int) (s : CycleState) :
    (l.foldl (processDevice all_devices usage A) s).visited = s.visited ++ l := by
  induction l generalizing s with
  | nil => simp
  | cons g l ih =>
    rw [List.foldl_cons, ih, processDevice_visited]
    simp

theorem foldl_next_le (l : List Int) (s : CycleState) :
    s.next ≤ (l.foldl (processDevice all_devices usage A) s).next := by
  induction l generalizing s with
  | nil => simp
  | cons g l ih =>
    rw [List.foldl_cons]
    exact le_trans (processDevice_next_le all_devices usage A s g) (ih _)

theorem foldl_frame (l : List Int) (s : CycleState) (gid : Int) (hni : gid ∉ l) :
    regLookup (l.foldl (processDevice all_devices usage A) s).active_processes gid
      = regLookup s.active_processes gid ∧
    (l.foldl (processDevice all_devices usage A) s).launches.count gid
      = s.launches.count gid := by
  induction l generalizing s with
  | nil => simp
  | cons g l ih =>
    rw [List.mem_cons] at hni
    push_neg at hni
    obtain ⟨h1, h2⟩ := hni
    obtain ⟨ha, hc⟩ := processDevice_frame all_devices usage A s gid g (Ne.symm h1)
    obtain ⟨ha2, hc2⟩ := ih (processDevice all_devices usage A s g) h2
    rw [List.foldl_cons]
    exact ⟨ha2.trans ha, hc2.trans hc⟩

theorem foldl_live (l : List Int) (s : CycleState) (gid : Int)
    (hlive : liveEntry A s.active_processes gid = true) :
    regLookup (l.foldl (processDevice all_devices usage A) s).active_processes gid
      = regLookup s.active_processes gid ∧
    (l.foldl (processDevice all_devices usage A) s).launches.count gid
      = s.launches.count gid := by
  induction l generalizing s with
  | nil => simp
  | cons g l ih =>
    rw [List.foldl_cons]
    by_cases hg : g = gid
    · subst hg
      obtain ⟨ha, hl, _⟩ := processDevice_live all_devices usage A s g hlive
      have hlive2 : liveEntry A
          (processDevice all_devices usage A s g).active_processes g = true := by
        rw [ha]; exact hlive
      obtain ⟨ha2, hc2⟩ := ih _ hlive2
      rw [ha2, ha, hc2, hl]
      exact ⟨rfl, rfl⟩
    · obtain ⟨ha, hc⟩ := processDevice_frame all_devices usage A s gid g hg
      have hlive2 : liveEntry A
          (processDevice all_devices usage A s g).active_processes gid = true := by
        rw [liveEntry_ext A _ _ gid ha]; exact hlive
      obtain ⟨ha2, hc2⟩ := ih _ hlive2
      exact ⟨ha2.trans ha, hc2.trans hc⟩

theorem foldl_invalid (l : List Int) (s : CycleState) (gid : Int)
    (hinv : gid ∉ all_devices.map Int.ofNat) :
    regLookup (l.foldl (processDevice all_devices usage A) s).active_processes gid
      = regLookup s.active_processes gid ∧
    (l.foldl (processDevice all_devices usage A) s).launches.count gid
      = s.launches.count gid := by
  induction l generalizing s with
  | nil => simp
  | cons g l ih =>
    rw [List.foldl_cons]
    by_cases hg : g = gid
    · subst hg
      obtain ⟨ha, hl, _⟩ := processDevice_invalid all_devices usage A s g hinv
      obtain ⟨ha2, hc2⟩ := ih (processDevice all_devices usage A s g)
      rw [ha2, ha, hc2, hl]
      exact ⟨rfl, rfl⟩
    · obtain ⟨ha, hc⟩ := processDevice_frame all_devices usage A s gid g hg
      obtain ⟨ha2, hc2⟩ := ih (processDevice all_devices usage A s g)
      exact ⟨ha2.trans ha, hc2.trans hc⟩

theorem foldl_busy (l : List Int) (s : CycleState) (gid : Int)
    (hbusy : usageGet usage gid = true) :
    regLookup (l.foldl (processDevice all_devices usage A) s).active_processes gid
      = regLookup s.active_processes gid ∧
    (l.foldl (processDevice all_devices usage A) s).launches.count gid
      = s.launches.count gid := by
  induction l generalizing s with
  | nil => simp
  | cons g l ih =>
    rw [List.foldl_cons]
    by_cases hg : g = gid
    · subst hg
      obtain ⟨ha, hl, _⟩ := processDevice_busy all_devices usage A s g hbusy
      obtain ⟨ha2, hc2⟩ := ih (processDevice all_devices usage A s g)
      rw [ha2, ha, hc2, hl]
      exact ⟨rfl, rfl⟩
    · obtain ⟨ha, hc⟩ := processDevice_frame all_devices usage A s gid g hg
      obtain ⟨ha2, hc2⟩ := ih (processDevice all_devices usage A s g)
      exact ⟨ha2.trans ha, hc2.trans hc⟩

theorem foldl_launch (l : List Int) (s : CycleState) (gid : Int)
    (hmem : gid ∈ l) (hval : gid ∈ all_devices.map Int.ofNat)
    (hfree : usageGet usage gid = false)
    (hdead : liveEntry A s.active_processes gid = false)
    (hA : ∀ h, s.next ≤ h → A h = true) :
    (∃ hdl, regLookup (l.foldl (processDevice all_devices usage A) s).active_processes gid
        = some hdl ∧ s.next ≤ hdl) ∧
    (l.foldl (processDevice all_devices usage A) s).launches.count gid
      = s.launches.count gid + 1 := by
  induction l generalizing s with
  | nil => simp at hmem
  | cons g l ih =>
    rw [List.foldl_cons]
    by_cases hg : g = gid
    · subst hg
      obtain ⟨ha, hl, _⟩ := processDevice_launch all_devices usage A s g hval hfree hdead
      have hlu : regLookup
          (processDevice all_devices usage A s g).active_processes g = some s.next := by
        rw [ha]; exact regLookup_regInsert_self _ _ _
      have hlive2 : liveEntry A
          (processDevice all_devices usage A s g).active_processes g = true := by
        unfold liveEntry; rw [hlu]; exact hA s.next le_rfl
      obtain ⟨ha2, hc2⟩ := foldl_live all_devices usage A l _ g hlive2
      refine ⟨⟨s.next, ?_, le_rfl⟩, ?_⟩
      · rw [ha2, hlu]
      · rw [hc2, hl, List.count_append]
        simp [List.count_cons]
    · have hmem2 : gid ∈ l := by
        rcases List.mem_cons.mp hmem with h | h
        · exact absurd h.symm hg
        · exact h
      obtain ⟨ha, hc⟩ := processDevice_frame all_devices usage A s gid g hg
      have hdead2 : liveEntry A
          (processDevice all_devices usage A s g).active_processes gid = false := by
        rw [liveEntry_ext A _ _ gid ha]; exact hdead
      have hA2 : ∀ h, (processDevice all_devices usage A s g).next ≤ h → A h = true :=
        fun h hh => hA h (le_trans (processDevice_next_le all_devices usage A s g) hh)
      obtain ⟨⟨hdl, hlu, hge⟩, hcnt⟩ := ih _ hmem2 hdead2 hA2
      refine ⟨⟨hdl, hlu, le_trans (processDevice_next_le all_devices usage A s g) hge⟩, ?_⟩
      rw [hcnt, hc]

theorem foldl_nodup (l : List Int) (s : CycleState)
    (hnd : (s.active_processes.map Prod.fst).Nodup) :
    ((l.foldl (processDevice all_devices usage A) s).active_processes.map Prod.fst).Nodup := by
  induction l generalizing s with
  | nil => simpa
  | cons g l ih =>
    rw [List.foldl_cons]
    exact ih _ (processDevice_nodup all_devices usage A s g hnd)

end FoldLemmas

/-! ## Probe lemmas -/

theorem usageLoop_error (env : ToolEnv) (raw : String) (devs : List Nat) (d : Nat)
    (hd : d ∈ devs) (herr : env.gpuUuid d = .error ()) :
    usageLoop env raw devs = .error () := by
  induction devs with
  | nil => simp at hd
  | cons d2 ds ih =>
    rcases List.mem_cons.mp hd with h | h
    · subst h
      simp [usageLoop, herr]
    · cases henv : env.gpuUuid d2 with
      | error e => cases e; simp [usageLoop, henv]
      | ok u =>
        cases hm : (if raw = "" then (Except.ok false : Except Unit Bool)
            else anyMatch (pyStrip u) (splitlines raw)) with
        | error e => cases e; simp [usageLoop, henv, hm]
        | ok b => simp [usageLoop, henv, hm, ih h]

theorem usageLoop_keys (env : ToolEnv) (raw : String) :
    ∀ (devs : List Nat) (usage : List (Nat × Bool)),
      usageLoop env raw devs = .ok usage → usage.map Prod.fst = devs := by
  intro devs
  induction devs with
  | nil =>
    intro usage h
    simp [usageLoop] at h
    simp [← h]
  | cons d ds ih =>
    intro usage h
    cases henv : env.gpuUuid d with
    | error e => simp [usageLoop, henv] at h
    | ok u =>
      cases hm : (if raw = "" then (Except.ok false : Except Unit Bool)
          else anyMatch (pyStrip u) (splitlines raw)) with
      | error e => simp [usageLoop, henv, hm] at h
      | ok b =>
        cases hrec : usageLoop env raw ds with
        | error e => simp [usageLoop, henv, hm, hrec] at h
        | ok rest =>
          simp [usageLoop, henv, hm, hrec] at h
          simp [← h, ih rest hrec]

theorem usageLoop_empty_listing (env : ToolEnv) (devs : List Nat)
    (hu : ∀ d ∈ devs, ∃ u, env.gpuUuid d = .ok u) :
    usageLoop env "" devs = .ok (devs.map (fun d => (d, false))) := by
  induction devs with
  | nil => simp [usageLoop]
  | cons d ds ih =>
    obtain ⟨u, hu1⟩ := hu d (List.mem_cons_self d ds)
    have ih2 := ih (fun d2 hd2 => hu d2 (List.mem_cons_of_mem _ hd2))
    simp [usageLoop, hu1, ih2]

/-! ## Claims -/

/-- Concrete probe environment: the compute-apps listing succeeds (and is
empty) but every per-device identity lookup fails. -/
def failingUuidEnv : ToolEnv :=
  { listApps := .ok "", gpuUuid := fun _ => .error () }

/-- C1 counterexample: with device 0 enumerated and its per-device identity
lookup failing, `get_gpu_usage` propagates the exception; it does not return
a snapshot in which device 0 defaults to "not in use". -/
theorem c1_probe_failure_counterexample :
    get_gpu_usage failingUuidEnv [0] = .error () ∧
    get_gpu_usage failingUuidEnv [0] ≠ .ok [(0, false)] := by
  refine ⟨rfl, fun h => ?_⟩
  rw [show get_gpu_usage failingUuidEnv [0] = .error () from rfl] at h
  exact Except.noConfusion h

/-- C1 (amended): a failing external tool invocation is not tolerated by
`get_gpu_usage`: if the compute-apps listing call fails, or the per-device
identity lookup fails for any enumerated device, the probe propagates the
exception instead of producing a snapshot with that device defaulted to
false — and since `main` has no handler around the probe, the cycle aborts
rather than logging and continuing. -/
theorem c1_probe_failure_propagates (env : ToolEnv) (devs : List Nat)
    (hfail : env.listApps = .error () ∨ ∃ d ∈ devs, env.gpuUuid d = .error ()) :
    get_gpu_usage env devs = .error () := by
  rcases hfail with h | ⟨d, hd, herr⟩
  · simp [get_gpu_usage, h]
  · cases hl : env.listApps with
    | error e => cases e; simp [get_gpu_usage, hl]
    | ok raw => simp [get_gpu_usage, hl, usageLoop_error env _ devs d hd herr]

/-- C1 witness: the amended statement applied to the concrete failing
environment. -/
theorem c1_probe_failure_witness :
    get_gpu_usage failingUuidEnv [0] = .error () :=
  c1_probe_failure_propagates failingUuidEnv [0] (Or.inr ⟨0, by simp, rfl⟩)

/-- C10: whenever `get_gpu_usage` returns a snapshot, the snapshot has
exactly one boolean entry per enumerated device, in enumeration order (so a
`usage.get(gid, False)` lookup for an enumerated id never falls back to the
default); and when the compute-apps listing is empty, every enumerated
device is reported not in use. -/
theorem c10_snapshot_covers_devices (env : ToolEnv) (devs : List Nat) :
    (∀ usage, get_gpu_usage env devs = .ok usage → usage.map Prod.fst = devs) ∧
    (∀ raw, env.listApps = .ok raw → pyStrip raw = "" →
      (∀ d ∈ devs, ∃ u, env.gpuUuid d = .ok u) →
      get_gpu_usage env devs = .ok (devs.map (fun d => (d, false)))) := by
  constructor
  · intro usage h
    cases hl : env.listApps with
    | error e => simp [get_gpu_usage, hl] at h
    | ok raw =>
      simp only [get_gpu_usage, hl] at h
      exact usageLoop_keys env (pyStrip raw) devs usage h
  · intro raw hl hstrip hu
    simp [get_gpu_usage, hl, hstrip, usageLoop_empty_listing env devs hu]

/-- Concrete probe environment with an empty compute-apps listing and
successful identity lookups. -/
def emptyListingEnv : ToolEnv :=
  { listApps := .ok "", gpuUuid := fun _ => .ok "GPU-x" }

/-- C10 witness: the empty-listing half of C10 applied to a concrete
environment with two devices. -/
theorem c10_snapshot_witness :
    get_gpu_usage emptyListingEnv [0, 1] = .ok [(0, false), (1, false)] :=
  (c10_snapshot_covers_devices emptyListingEnv [0, 1]).2 "" rfl rfl
    (fun _ _ => ⟨"GPU-x", rfl⟩)

/-- C9 (amended): whenever the resolved managed list is empty, startup
prints and exits with status 1 before the supervision loop (so before any
launch or registry write); and the managed list does resolve empty when the
flag is absent — or given as the empty string, which Python truthiness sends
to the same default branch — while the enumerator reports zero devices.  An
explicitly empty `--gpus` with devices present instead falls back to
managing all enumerated devices (see the counterexample). -/
theorem c9_empty_managed_exits_one (gpusArg : Option String) (all_devices : List Nat) :
    (resolveGpuIds gpusArg all_devices = .ok [] →
      mainStartup gpusArg all_devices = .exitWith 1) ∧
    ((gpusArg = none ∨ gpusArg = some "") → all_devices = [] →
      resolveGpuIds gpusArg all_devices = .ok []) := by
  constructor
  · intro h
    simp [mainStartup, h]
  · rintro (h | h) he <;> subst h <;> subst he <;> rfl

/-- C9 witness: zero enumerated devices and no flag exit with status 1. -/
theorem c9_empty_managed_witness : mainStartup none [] = .exitWith 1 :=
  (c9_empty_managed_exits_one none []).1
    ((c9_empty_managed_exits_one none []).2 (Or.inl rfl) rfl)

/-- C9 counterexample: the claim lists "the user explicitly passes an empty
device list" as producing the empty managed set, but `--gpus ""` is falsy in
Python, so with one enumerated device the program proceeds to manage device
0 instead of exiting with status 1. -/
theorem c9_empty_flag_counterexample :
    mainStartup (some "") [0] = .runLoop [0] ∧
    mainStartup (some "") [0] ≠ .exitWith 1 := by
  refine ⟨rfl, fun h => ?_⟩
  rw [show mainStartup (some "") [0] = .runLoop [0] from rfl] at h
  exact StartupResult.noConfusion h

/-- C8 (amended): within one cycle the managed devices are visited exactly
in the order of the resolved `gpu_ids` list — deterministic, but it is the
command-line order (ascending only in the default all-devices case), not
ascending id order in general. -/
theorem c8_processing_order (all_devices : List Nat) (usage : List (Nat × Bool))
    (alive0 : Nat → Bool) (gpu_ids : List Int) (reg : List (Int × Nat)) (next0 : Nat) :
    (runCycle all_devices usage alive0 gpu_ids reg next0).visited = gpu_ids := by
  simp [runCycle, foldl_visited]

/-- C8 counterexample: `--gpus "3,1"` resolves to the managed list `[3, 1]`
and the cycle visits the devices in exactly that order, which is not
ascending. -/
theorem c8_order_counterexample :
    resolveGpuIds (some "3,1") [0, 1, 2, 3] = .ok [3, 1] ∧
    (runCycle [0, 1, 2, 3] [] (fun _ => false) [3, 1] [] 0).visited = [3, 1] ∧
    ¬ ([3, 1] : List Int).Sorted (· ≤ ·) := by
  refine ⟨rfl, rfl, fun h => ?_⟩
  have := (List.sorted_cons.mp h).1 1 (by simp)
  omega

/-- Pairwise holds for a relation that holds everywhere. -/
theorem pairwise_of_total {α : Type} {R : α → α → Prop} (h : ∀ a b, R a b) :
    ∀ l : List α, l.Pairwise R
  | [] => List.Pairwise.nil
  | a :: l => List.Pairwise.cons (fun b _ => h a b) (pairwise_of_total h l)

/-- C3: `shutdown_all` issues a terminate to every registry entry whose
handle is alive, issues a join to every registry entry whether alive or not
(`join()` is called with no timeout, so each blocks until that process has
fully exited), every terminate comes before every join, and the final action
is exiting the process with status 0. -/
theorem c3_shutdown_sequence (alive : Nat → Bool) (reg : List (Int × Nat)) :
    (∀ p ∈ reg, alive p.2 = true → SEvent.term p.1 ∈ shutdown_all alive reg) ∧
    (∀ p ∈ reg, SEvent.join p.1 ∈ shutdown_all alive reg) ∧
    (shutdown_all alive reg).getLast? = some (SEvent.exitWith 0) ∧
    (shutdown_all alive reg).Pairwise (fun a b => eventPhase a ≤ eventPhase b) := by
  refine ⟨?_, ?_, ?_, ?_⟩
  · intro p hp hl
    rw [shutdown_all]
    exact List.mem_append_left _ (List.mem_append_left _
      (List.mem_map.mpr ⟨p, List.mem_filter.mpr ⟨hp, hl⟩, rfl⟩))
  · intro p hp
    rw [shutdown_all]
    exact List.mem_append_left _ (List.mem_append_right _
      (List.mem_map.mpr ⟨p, hp, rfl⟩))
  · rw [shutdown_all]
    exact List.getLast?_concat _
  · rw [shutdown_all]
    refine List.pairwise_append.mpr ⟨?_, ?_, ?_⟩
    · refine List.pairwise_append.mpr ⟨?_, ?_, ?_⟩
      · exact List.pairwise_map.mpr (pairwise_of_total (fun a b => by simp [eventPhase]) _)
      · exact List.pairwise_map.mpr (pairwise_of_total (fun a b => by simp [eventPhase]) _)
      · intro a ha b hb
        obtain ⟨p, _, rfl⟩ := List.mem_map.mp ha
        simp [eventPhase]
    · simp
    · intro a ha b hb
      simp only [List.mem_singleton] at hb
      subst hb
      rcases List.mem_append.mp ha with h | h
      · obtain ⟨p, _, rfl⟩ := List.mem_map.mp h
        simp [eventPhase]
      · obtain ⟨p, _, rfl⟩ := List.mem_map.mp h
        simp [eventPhase]

/-- C3 witness: the shutdown sequence facts at a concrete registry with one
live entry for device 0. -/
theorem c3_shutdown_witness :
    SEvent.term 0 ∈ shutdown_all (fun _ => true) [(0, 5)] ∧
    SEvent.join 0 ∈ shutdown_all (fun _ => true) [(0, 5)] ∧
    (shutdown_all (fun _ => true) [(0, 5)]).getLast? = some (SEvent.exitWith 0) :=
  ⟨(c3_shutdown_sequence (fun _ => true) [(0, 5)]).1 (0, 5) (by simp) rfl,
   (c3_shutdown_sequence (fun _ => true) [(0, 5)]).2.1 (0, 5) (by simp),
   (c3_shutdown_sequence (fun _ => true) [(0, 5)]).2.2.1⟩

/-- C2 counterexample: one worker registered for device 0 and alive.  The
first `shutdown_all` invocation joins its handle once; a second invocation —
after the first one's join loop has completed, so every process is dead —
joins the same handle again.  The join sequence is therefore re-run on the
second invocation, which the claim rules out. -/
theorem c2_second_join_counterexample :
    (shutdown_all (fun _ => true) [(0, 0)]).count (SEvent.join 0) = 1 ∧
    (shutdown_all deadAll [(0, 0)]).count (SEvent.join 0) = 1 := by
  constructor <;> rfl

/-- C2 (amended): `shutdown_all` has no re-entrancy latch.  A second
invocation after a completed first one (all processes joined, hence dead)
issues no terminate to any handle — the per-entry `is_alive()` guard filters
every entry out — but it does re-run one join per registry entry (each
returning immediately on an exited process) and then exits 0 again; nothing
hangs or raises, the teardown is only accidentally, not structurally,
idempotent. -/
theorem c2_second_invocation (reg : List (Int × Nat)) :
    (∀ g, SEvent.term g ∉ shutdown_all deadAll reg) ∧
    shutdown_all deadAll reg
      = (reg.map (fun p => SEvent.join p.1)) ++ [SEvent.exitWith 0] := by
  constructor
  · intro g hg
    rw [shutdown_all] at hg
    simp [deadAll] at hg
  · rw [shutdown_all]
    simp [deadAll]

/-- C2 witness: the amended statement at a concrete one-entry registry. -/
theorem c2_second_invocation_witness :
    SEvent.term 0 ∉ shutdown_all deadAll [(0, 0)] :=
  (c2_second_invocation [(0, 0)]).1 0

/-- Key uniqueness of the registry is preserved by any number of cycles. -/
theorem runCycles_nodup (all_devices : List Nat) (gpu_ids : List Int)
    (trace : List (List (Nat × Bool) × (Nat → Bool))) :
    ∀ (reg : List (Int × Nat)) (next0 : Nat), (reg.map Prod.fst).Nodup →
      ((runCycles all_devices gpu_ids trace (reg, next0)).1.map Prod.fst).Nodup := by
  induction trace with
  | nil => intro reg next0 h; simpa [runCycles]
  | cons c rest ih =>
    intro reg next0 h
    obtain ⟨u, a⟩ := c
    simp only [runCycles]
    exact ih _ _ (foldl_nodup all_devices u (aliveInCycle a next0) gpu_ids _ h)

/-- C4: (i) starting from a registry with unique device keys — the program
starts with an empty one — any number of supervision cycles preserves that
each device id has at most one registry binding; (ii) within any single
cycle no device id is launched more than once, even when the managed list
repeats an id; (iii) a device whose registry entry is live at the start of a
cycle is not launched at all during that cycle (in particular not when it is
also reported free). -/
theorem c4_at_most_one_live_handle (all_devices : List Nat)
    (usage : List (Nat × Bool)) (alive0 : Nat → Bool) (gpu_ids : List Int)
    (reg : List (Int × Nat)) (next0 : Nat)
    (trace : List (List (Nat × Bool) × (Nat → Bool)))
    (hnd : (reg.map Prod.fst).Nodup) :
    ((runCycles all_devices gpu_ids trace (reg, next0)).1.map Prod.fst).Nodup ∧
    (∀ gid, (runCycle all_devices usage alive0 gpu_ids reg next0).launches.count gid ≤ 1) ∧
    (∀ gid, liveEntry (aliveInCycle alive0 next0) reg gid = true →
      (runCycle all_devices usage alive0 gpu_ids reg next0).launches.count gid = 0) := by
  refine ⟨runCycles_nodup all_devices gpu_ids trace reg next0 hnd, ?_, ?_⟩
  · intro gid
    by_cases hlive : liveEntry (aliveInCycle alive0 next0) reg gid = true
    · obtain ⟨_, hc⟩ := foldl_live all_devices usage (aliveInCycle alive0 next0)
        gpu_ids ⟨reg, next0, [], []⟩ gid hlive
      rw [runCycle, hc]
      simp
    · by_cases hmem : gid ∈ gpu_ids
      · by_cases hval : gid ∈ all_devices.map Int.ofNat
        · by_cases hbusy : usageGet usage gid = true
          · obtain ⟨_, hc⟩ := foldl_busy all_devices usage (aliveInCycle alive0 next0)
              gpu_ids ⟨reg, next0, [], []⟩ gid hbusy
            rw [runCycle, hc]
            simp
          · have hA : ∀ h, (⟨reg, next0, [], []⟩ : CycleState).next ≤ h →
                aliveInCycle alive0 next0 h = true := by
              intro h hh
              have hh2 : next0 ≤ h := hh
              rw [aliveInCycle, if_neg (by omega)]
            obtain ⟨_, hc⟩ := foldl_launch all_devices usage (aliveInCycle alive0 next0)
              gpu_ids ⟨reg, next0, [], []⟩ gid hmem hval
              (Bool.not_eq_true _ ▸ hbusy) (Bool.not_eq_true _ ▸ hlive) hA
            rw [runCycle, hc]
            simp
        · obtain ⟨_, hc⟩ := foldl_invalid all_devices usage (aliveInCycle alive0 next0)
            gpu_ids ⟨reg, next0, [], []⟩ gid hval
          rw [runCycle, hc]
          simp
      · obtain ⟨_, hc⟩ := foldl_frame all_devices usage (aliveInCycle alive0 next0)
          gpu_ids ⟨reg, next0, [], []⟩ gid hmem
        rw [runCycle, hc]
        simp
  · intro gid hlive
    obtain ⟨_, hc⟩ := foldl_live all_devices usage (aliveInCycle alive0 next0)
      gpu_ids ⟨reg, next0, [], []⟩ gid hlive
    rw [runCycle, hc]
    simp

/-- C4 witness: a managed list that repeats device 0, which is free and
unregistered — still only one launch. -/
theorem c4_witness :
    (runCycle [0] [(0, false)] (fun _ => false) [0, 0] [] 0).launches.count 0 ≤ 1 :=
  (c4_at_most_one_live_handle [0] [(0, false)] (fun _ => false) [0, 0] [] 0 []
    (by simp)).2.1 0

/-- C5: a device that is in the managed list, enumerated, reported free by
the cycle's snapshot, and has no live registry entry is launched exactly
once that cycle, and the registry afterwards binds it to a handle minted
during this cycle (`next0 ≤ hdl`), replacing any stale dead binding. -/
theorem c5_free_device_launched_once (all_devices : List Nat)
    (usage : List (Nat × Bool)) (alive0 : Nat → Bool) (gpu_ids : List Int)
    (reg : List (Int × Nat)) (next0 : Nat) (gid : Int)
    (hmem : gid ∈ gpu_ids) (hval : gid ∈ all_devices.map Int.ofNat)
    (hfree : usageGet usage gid = false)
    (hdead : liveEntry (aliveInCycle alive0 next0) reg gid = false) :
    (runCycle all_devices usage alive0 gpu_ids reg next0).launches.count gid = 1 ∧
    ∃ hdl, regLookup
        (runCycle all_devices usage alive0 gpu_ids reg next0).active_processes gid
      = some hdl ∧ next0 ≤ hdl := by
  have hA : ∀ h, (⟨reg, next0, [], []⟩ : CycleState).next ≤ h →
      aliveInCycle alive0 next0 h = true := by
    intro h hh
    have hh2 : next0 ≤ h := hh
    rw [aliveInCycle, if_neg (by omega)]
  obtain ⟨⟨hdl, hlu, hge⟩, hcnt⟩ := foldl_launch all_devices usage
    (aliveInCycle alive0 next0) gpu_ids ⟨reg, next0, [], []⟩ gid hmem hval hfree hdead hA
  refine ⟨?_, hdl, ?_, hge⟩
  · rw [runCycle, hcnt]
    simp
  · rw [runCycle]
    exact hlu

/-- C5 witness: device 0 free with a stale dead entry (handle 5, dead) is
relaunched exactly once. -/
theorem c5_witness :
    (runCycle [0] [(0, false)] (fun _ => false) [0] [(0, 5)] 7).launches.count 0 = 1 :=
  (c5_free_device_launched_once [0] [(0, false)] (fun _ => false) [0] [(0, 5)] 7 0
    (by simp) (by simp) rfl rfl).1

/-- C6: a device the snapshot reports in use is never launched that cycle
and its registry binding is untouched, whatever its prior registry state
(absent, dead or alive); the step only logs. -/
theorem c6_busy_device_untouched (all_devices : List Nat)
    (usage : List (Nat × Bool)) (alive0 : Nat → Bool) (gpu_ids : List Int)
    (reg : List (Int × Nat)) (next0 : Nat) (gid : Int)
    (hbusy : usageGet usage gid = true) :
    (runCycle all_devices usage alive0 gpu_ids reg next0).launches.count gid = 0 ∧
    regLookup (runCycle all_devices usage alive0 gpu_ids reg next0).active_processes gid
      = regLookup reg gid := by
  obtain ⟨ha, hc⟩ := foldl_busy all_devices usage (aliveInCycle alive0 next0)
    gpu_ids ⟨reg, next0, [], []⟩ gid hbusy
  refine ⟨?_, ?_⟩
  · rw [runCycle, hc]
    simp
  · rw [runCycle]
    exact ha

/-- C6 witness: device 0 busy with a live registered handle — no launch and
the binding is unchanged. -/
theorem c6_witness :
    (runCycle [0] [(0, true)] (fun _ => true) [0] [(0, 5)] 7).launches.count 0 = 0 ∧
    regLookup (runCycle [0] [(0, true)] (fun _ => true) [0] [(0, 5)] 7).active_processes 0
      = some 5 :=
  ⟨(c6_busy_device_untouched [0] [(0, true)] (fun _ => true) [0] [(0, 5)] 7 0 rfl).1,
   (c6_busy_device_untouched [0] [(0, true)] (fun _ => true) [0] [(0, 5)] 7 0 rfl).2⟩

/-- C7: a managed id outside the enumerated set is only warned about: its
iteration step leaves the whole registry, the launch log and the handle
counter untouched, and over any full cycle (any snapshot, any liveness
oracle) no launch happens for that id and its registry binding — present or
absent — is unchanged. -/
theorem c7_invalid_id_skipped (all_devices : List Nat)
    (usage : List (Nat × Bool)) (alive0 : Nat → Bool) (gpu_ids : List Int)
    (reg : List (Int × Nat)) (next0 : Nat) (gid : Int)
    (hinv : gid ∉ all_devices.map Int.ofNat) :
    (∀ s : CycleState,
      (processDevice all_devices usage (aliveInCycle alive0 next0) s gid).active_processes
          = s.active_processes ∧
      (processDevice all_devices usage (aliveInCycle alive0 next0) s gid).launches
          = s.launches ∧
      (processDevice all_devices usage (aliveInCycle alive0 next0) s gid).next
          = s.next) ∧
    (runCycle all_devices usage alive0 gpu_ids reg next0).launches.count gid = 0 ∧
    regLookup (runCycle all_devices usage alive0 gpu_ids reg next0).active_processes gid
      = regLookup reg gid := by
  obtain ⟨ha, hc⟩ := foldl_invalid all_devices usage (aliveInCycle alive0 next0)
    gpu_ids ⟨reg, next0, [], []⟩ gid hinv
  refine ⟨fun s => processDevice_invalid all_devices usage _ s gid hinv, ?_, ?_⟩
  · rw [runCycle, hc]
    simp
  · rw [runCycle]
    exact ha

/-- C7 witness: id 7 with only devices 0 and 1 enumerated — no launch, no
registry change over a full cycle. -/
theorem c7_witness :
    (runCycle [0, 1] [(0, false), (1, false)] (fun _ => false) [7] [] 0).launches.count 7
      = 0 :=
  (c7_invalid_id_skipped [0, 1] [(0, false), (1, false)] (fun _ => false) [7] [] 0 7
    (by decide)).2.1

end GpuWatcher
